import Mathlib

/-!
Verification of the daily-tech-brief ingestion/dedup/curation pipeline.

The definitions below are shallow embeddings of the Python source:
- string helpers and `clean_html` from `src/daily_brief.py` / `src/parsers/rss.py`
- the `StateManager` dedup store from `src/services/db.py`
- the Gemini selection handling from `src/services/llm.py`
- the RSS and GitHub changelog parsers from `src/parsers/`
- the curation/save stage of `main` from `src/daily_brief.py`

Network, feed parsing and the ranking service are modelled as explicit
oracles (functions returning `Except`), so that every failure path the
Python code catches is an explicit branch here.
-/

namespace DailyBrief

/-! ## Python string primitives -/

/-- The whitespace characters recognised by Python `str.split()` / `str.strip()`
(ASCII subset, which is all the pipeline ever feeds them). -/
def pyWs : List Char := [' ', '\t', '\n', '\r', '\x0b', '\x0c']

def isPyWs (c : Char) : Bool := pyWs.contains c

/-- Worker for Python `str.split()` with no separator: split on runs of
whitespace, dropping empty fields.  `cur` is the current word, reversed. -/
def pySplitAux : List Char → List Char → List (List Char)
  | [], [] => []
  | [], cur => [cur.reverse]
  | c :: rest, cur =>
    if isPyWs c then
      match cur with
      | [] => pySplitAux rest []
      | _ :: _ => cur.reverse :: pySplitAux rest []
    else pySplitAux rest (c :: cur)

def pySplit (s : List Char) : List (List Char) := pySplitAux s []

/-- Python `" ".join(words)` on character lists. -/
def joinSpace (ws : List (List Char)) : List Char :=
  (List.intersperse [' '] ws).flatten

/-- Scanning for the end of a regex match of `<.*?>` after the opening `<`:
the shortest run, not crossing a newline (`.` does not match newline),
that ends at `>`.  Returns the remainder after the `>` on success. -/
def findTagEnd : List Char → Option (List Char)
  | [] => none
  | c :: rest =>
    if c = '>' then some rest
    else if c = '\n' then none
    else findTagEnd rest

/-- Python `re.sub("<.*?>", "", s)`: delete every non-overlapping leftmost-shortest
tag match.  Structural recursion on a fuel argument (every step consumes at
least one character, so `fuel = length` never runs out; see `findTagEnd_length`). -/
def stripTagsF : Nat → List Char → List Char
  | 0, _ => []
  | _ + 1, [] => []
  | fuel + 1, c :: rest =>
    if c = '<' then
      match findTagEnd rest with
      | some rest2 => stripTagsF fuel rest2
      | none => c :: stripTagsF fuel rest
    else c :: stripTagsF fuel rest

def stripTags (l : List Char) : List Char := stripTagsF l.length l

/-- Core of `clean_html` on a non-empty string: strip tags, then
`" ".join(text.split())`. -/
def cleanCore (s : String) : String :=
  String.mk (joinSpace (pySplit (stripTags s.data)))

/-- Embeds `RSSParser._clean_html` (src/parsers/rss.py lines 22-28): takes a plain
string (`if not raw_html` is the empty-string test). -/
def cleanHtmlStr (s : String) : String :=
  if s = "" then "" else cleanCore s

/-- Embeds `clean_html` (src/daily_brief.py lines 210-216): the argument is
`Optional[str]`; `if not raw_html` catches both `None` and `""`. -/
def cleanHtml : Option String → String
  | none => ""
  | some s => cleanHtmlStr s

/-! ## Data model -/

/-- A (non-container) Python/JSON value, as delivered by `json.loads` for the
fields of a ranking-service selection.  The selection handling only ever looks
at `sel["id"]` and `sel.get("analysis", ...)`, so scalar values suffice. -/
inductive PyAtom where
  | aint (n : Int)
  | astr (s : String)
  | anone
  deriving DecidableEq

/-- A parsed ranking-service selection entry: either a JSON object (a dict of
scalar fields) or some non-dict value, which `isinstance(sel, dict)` rejects. -/
inductive PyVal where
  | atom (a : PyAtom)
  | pdict (entries : List (String × PyAtom))
  deriving DecidableEq

/-- The `Article` TypedDict (src/models.py).  `reason` is `None` until the
curation step assigns it whatever value `sel.get("analysis", ...)` returned. -/
structure Article where
  source : String
  title : String
  link : String
  summary : String
  full_text : String
  reason : Option PyAtom
  deriving DecidableEq

/-! ## Deduplication store (StateManager, src/services/db.py) -/

/-- A Firestore document id (the md5 hex of an article link). -/
abbrev StoreId := String

/-- The `seen_articles` collection, modelled by which document ids exist.
(The documents also carry title/url/timestamp; no claim inspects them, only
existence drives `filter_new`.) -/
structure Store where
  docs : List StoreId
  deriving DecidableEq

/-- The `StateManager` state: `none` models `self.db = None` (no project id or a
failed Firestore connection). -/
abbrev DB := Option Store

/-- Slicing `l[i : i + n]` along `range(0, len(l), n)`, as `filter_new` does
with `chunk_size = 30`.  (Only ever used with positive `n`.) -/
def chunksOf (n : Nat) : List α → List (List α)
  | [] => []
  | c :: rest => (c :: rest.take (n - 1)) :: chunksOf n (rest.drop (n - 1))
termination_by l => l.length
decreasing_by simp only [List.length_drop, List.length_cons]; omega

/-- Embeds `StateManager.filter_new` (src/services/db.py lines 38-71), with the
identity hash `get_id` abstracted as `getId`.  `seenIds` collects, chunk by
chunk of 30, the looked-up document ids that exist in the store. -/
def filterNew (getId : String → String) (db : DB) (articles : List Article) :
    List Article :=
  match db with
  | none => articles
  | some store =>
    if articles = [] then articles
    else
      let docRefs := articles.map (fun a => getId a.link)
      let seenIds := (chunksOf 30 docRefs).foldl
        (fun acc chunk => acc ++ chunk.filter (fun r => decide (r ∈ store.docs))) []
      articles.filter (fun a => decide (getId a.link ∉ seenIds))

/-- The write loop of `StateManager.save_processed` (src/services/db.py lines
78-100).  `pending` is the current uncommitted Firestore batch (the source

keeps `count = len(pending)` alongside it); each commit appends the pending
writes to the store and records the commit size. -/
def saveLoop (getId : String → String) :
    List Article → Store → List StoreId → List Nat → Store × List Nat
  | [], store, pending, commits =>
    if pending.length > 0 then
      ({ docs := store.docs ++ pending }, commits ++ [pending.length])
    else (store, commits)
  | a :: rest, store, pending, commits =>
    let pending2 := pending ++ [getId a.link]
    if pending2.length ≥ 400 then
      saveLoop getId rest { docs := store.docs ++ pending2 } []
        (commits ++ [pending2.length])
    else saveLoop getId rest store pending2 commits

/-- Embeds `StateManager.save_processed` (src/services/db.py lines 73-101): returns
the updated state together with the sizes of the batch commits it issued. -/
def saveProcessed (getId : String → String) (db : DB) (articles : List Article) :
    DB × List Nat :=
  match db with
  | none => (none, [])
  | some store =>
    if articles = [] then (some store, [])
    else
      let res := saveLoop getId articles store [] []
      (some res.1, res.2)

/-! ## Curation (LLMService.analyze_with_gemini, src/services/llm.py) -/

/-- A Python exception raised while processing one selection entry. -/
inductive PyErr where
  | typeError
  | indexError
  deriving DecidableEq

/-- Dict lookup, `entries[k]` / `k in entries`. -/
def dictLookup (k : String) : List (String × PyAtom) → Option PyAtom
  | [] => none
  | e :: rest => if e.1 = k then some e.2 else dictLookup k rest

/-- Python `sel.get(k, d)`. -/
def selGet (entries : List (String × PyAtom)) (k : String) (d : PyAtom) : PyAtom :=
  match dictLookup k entries with
  | some v => v
  | none => d

/-- Python list indexing `l[i]`: negative indices count from the end;
out-of-range raises `IndexError`. -/
def pyIndex (l : List Article) (i : Int) : Except PyErr Article :=
  let j : Int := if i < 0 then (l.length : Int) + i else i
  if 0 ≤ j then
    match l.get? j.toNat with
    | some a => Except.ok a
    | none => Except.error PyErr.indexError
  else Except.error PyErr.indexError

def defaultAnalysis : PyAtom := PyAtom.astr "No analysis provided."

/-- One iteration of the selection loop (src/services/llm.py lines 115-123):
`if isinstance(sel, dict) and "id" in sel and sel["id"] < len(candidates)`.
`ok none` means the entry was skipped; an `error` propagates to the outer
`except` handler.  A non-integer `id` makes the `<` comparison raise
`TypeError`; a negative integer `id` passes the check and is used as a Python
index into `candidates`. -/
def selOutcome (candidates : List Article) (sel : PyVal) : Except PyErr (Option Article) :=
  match sel with
  | PyVal.atom _ => Except.ok none
  | PyVal.pdict entries =>
    match dictLookup "id" entries with
    | none => Except.ok none
    | some (PyAtom.astr _) => Except.error PyErr.typeError
    | some PyAtom.anone => Except.error PyErr.typeError
    | some (PyAtom.aint n) =>
      if n < (candidates.length : Int) then
        match pyIndex candidates n with
        | Except.error e => Except.error e
        | Except.ok a =>
          Except.ok (some { a with
            reason := some (selGet entries "analysis" defaultAnalysis) })
      else Except.ok none

/-- The `for sel in selections` loop building `final_list`. -/
def processSelections (candidates : List Article) :
    List PyVal → Except PyErr (List Article)
  | [] => Except.ok []
  | sel :: rest =>
    match selOutcome candidates sel with
    | Except.error e => Except.error e
    | Except.ok none => processSelections candidates rest
    | Except.ok (some a) =>
      match processSelections candidates rest with
      | Except.error e => Except.error e
      | Except.ok l => Except.ok (a :: l)

/-- Embeds `LLMService.analyze_with_gemini` (src/services/llm.py lines 85-131) from
the point where the ranking-service response has been parsed into
`selections`: truncate to the 500-candidate window, process the selections,
and resolve any raised exception to an empty result at the outer handler.
The same loop appears in `analyze_with_gemini` (src/daily_brief.py 312-318). -/
def analyzeWithGemini (articles : List Article) (selections : List PyVal) :
    List Article :=
  let candidates := articles.take 500
  match processSelections candidates selections with
  | Except.ok l => l
  | Except.error _ => []

/-! ## The curation/save stage of main (src/daily_brief.py lines 416-438) -/

/-- What the tail of `main` did: `emailed = some (fp, fb)` iff `send_email`
was called with those two groups, `saved = some l` iff `save_processed(l)`
was called. -/
structure RunOutcome where
  emailed : Option (List Article × List Article)
  saved : Option (List Article)
  deriving DecidableEq

/-- The curation and persistence stage of `main`, given the two filtered-new
groups and the curation function (`analyze_with_gemini` with its service
response fixed).  Mirrors: early return when both groups are empty; curate
each non-empty group with limit 15; email and save all filtered-new articles
only when at least one curated group is non-empty. -/
def mainCurationStage (newPlatform newBlogs : List Article)
    (analyze : List Article → Nat → List Article) : RunOutcome :=
  if newPlatform = [] ∧ newBlogs = [] then
    { emailed := none, saved := none }
  else
    let finalPlatform := if newPlatform = [] then [] else analyze newPlatform 15
    let finalBlogs := if newBlogs = [] then [] else analyze newBlogs 15
    if finalPlatform = [] ∧ finalBlogs = [] then
      { emailed := none, saved := none }
    else
      { emailed := some (finalPlatform, finalBlogs),
        saved := some (newPlatform ++ newBlogs) }

/-! ## HTTP and string plumbing for the parsers -/

structure HttpResponse where
  status : Nat
  body : String
  deriving DecidableEq

/-- A `requests.RequestException`: connection-level failure or the
`HTTPError` raised by `raise_for_status`. -/
inductive RequestError where
  | networkError
  | httpError (status : Nat)
  deriving DecidableEq

/-- The network oracle: what `requests.get(url, timeout=10)` resolves to —
either a raised `RequestException` or the final `Response`. -/
abbrev Net := String → Except RequestError HttpResponse

/-- Models `Response.raise_for_status`: raises `HTTPError` exactly when
`400 <= status_code < 600`; any other response is passed through. -/
def raiseForStatus (r : HttpResponse) : Except RequestError HttpResponse :=
  if 400 ≤ r.status ∧ r.status < 600 then
    Except.error (RequestError.httpError r.status)
  else Except.ok r

/-- Feed-parse failure inside the parser body (caught by its outer handler). -/
inductive ParseError where
  | parseFailure
  deriving DecidableEq

/-- A feedparser entry: `hasattr` -mediated optional fields. -/
structure FeedEntry where
  title : Option String
  summary : Option String
  link : Option String
  deriving DecidableEq

/-- Python slicing `s[:n]`. -/
def pySlice (s : String) (n : Nat) : String := String.mk (s.data.take n)

/-- Does `pat` occur at the start of `l`? -/
def leadsWith : List Char → List Char → Bool
  | [], _ => true
  | _ :: _, [] => false
  | a :: as2, b :: bs => a = b && leadsWith as2 bs

/-- Does `pat` occur anywhere in `l`?  (Python `pat in s`.) -/
def hasSub (pat : List Char) : List Char → Bool
  | [] => pat.isEmpty
  | c :: rest => leadsWith pat (c :: rest) || hasSub pat rest

def containsSubstr (s pat : String) : Bool := hasSub pat.data s.data

/-- Python `s.replace(pat, rep)` for non-empty `pat`: replace every
non-overlapping occurrence, scanning left to right.  Fuel recursion
(`fuel = length` always suffices: each step consumes at least one char). -/
def pyReplaceF (pat rep : List Char) : Nat → List Char → List Char
  | 0, s => s
  | _ + 1, [] => []
  | fuel + 1, c :: rest =>
    if !pat.isEmpty && leadsWith pat (c :: rest) then
      rep ++ pyReplaceF pat rep fuel (rest.drop (pat.length - 1))
    else c :: pyReplaceF pat rep fuel rest

def strReplace (s pat rep : String) : String :=
  String.mk (pyReplaceF pat.data rep.data s.data.length s.data)

/-- Python `s.strip()` (ASCII whitespace). -/
def pyStrip (s : String) : String :=
  String.mk (((s.data.dropWhile isPyWs).reverse.dropWhile isPyWs).reverse)

/-- Python `s.split("\n")`: keeps empty fields; result has one more field
than there are newlines. -/
def splitLinesAux : List Char → List (List Char)
  | [] => [[]]
  | c :: rest =>
    if c = '\n' then [] :: splitLinesAux rest
    else
      match splitLinesAux rest with
      | [] => [[c]]
      | w :: ws => (c :: w) :: ws

def splitLines (s : String) : List String :=
  (splitLinesAux s.data).map String.mk

/-- Python `"\n".join(lines)`. -/
def joinNl (ws : List String) : List Char :=
  (List.intersperse ['\n'] (ws.map String.data)).flatten

/-- The regex class `\w` of `make_anchor`, on the ASCII range the changelog
headers use. -/
def isWordChar (c : Char) : Bool :=
  (decide ('a' ≤ c) && decide (c ≤ 'z')) ||
  (decide ('A' ≤ c) && decide (c ≤ 'Z')) ||
  (decide ('0' ≤ c) && decide (c ≤ '9')) || c == '_'

/-- Embeds `make_anchor` (src/parsers/github.py lines 53-54): lowercase, delete
characters outside `[\w\s-]`, then turn spaces into hyphens. -/
def makeAnchor (text : String) : String :=
  String.mk (((text.data.map Char.toLower).filter
      (fun c => isWordChar c || isPyWs c || c == '-')).map
    (fun c => if c = ' ' then '-' else c))

/-! ## RSS parser (RSSParser.fetch, src/parsers/rss.py lines 30-69) -/

/-- Building one `Article` from a feedparser entry (the loop body,
src/parsers/rss.py lines 47-66): missing title/summary default to `""`,
missing link to `"#"`; the summary is tag-stripped, sliced to 250 chars and
suffixed with `"..."`. -/
def mkRssArticle (source : String) (e : FeedEntry) : Article :=
  let title := match e.title with | some t => t | none => ""
  let rawSummary := match e.summary with | some s2 => s2 | none => ""
  let link := match e.link with | some l => l | none => "#"
  let cleanContent := cleanHtmlStr rawSummary
  { source := source
    title := title
    link := link
    summary := pySlice cleanContent 250 ++ "..."
    full_text := title ++ " - " ++ pySlice cleanContent 300
    reason := none }

/-- Embeds `RSSParser.fetch`: network errors and `raise_for_status` are caught by
the inner `except requests.RequestException` (returns `[]`); a feed-parse
failure is caught by the outer handler while `items` is still empty. -/
def rssFetch (net : Net) (parse : String → Except ParseError (List FeedEntry))
    (source url : String) : List Article :=
  match net url with
  | Except.error _ => []
  | Except.ok resp =>
    match raiseForStatus resp with
    | Except.error _ => []
    | Except.ok resp2 =>
      match parse resp2.body with
      | Except.error _ => []
      | Except.ok entries => entries.map (mkRssArticle source)

/-! ## GitHub changelog parser (GitHubChangelogParser, src/parsers/github.py) -/

/-- Embeds `_convert_to_raw_url` (src/parsers/github.py lines 24-32). -/
def convertToRawUrl (url : String) : String :=
  if containsSubstr url "github.com" && containsSubstr url "/blob/" then
    strReplace (strReplace url "github.com" "raw.githubusercontent.com") "/blob/" "/"
  else url

/-- The conditional truncation of a section body:
`summary[:250] + "..." if len(summary) > 250 else summary`. -/
def truncSummary (s : String) : String :=
  if s.data.length > 250 then pySlice s 250 ++ "..." else s

/-- Building one changelog `Article` from a section header and body lines. -/
def mkChangelogArticle (source url version : String) (body : List String) :
    Article :=
  let summary := pyStrip (String.mk (joinNl body))
  let anchor := makeAnchor version
  { source := source
    title := "Changelog " ++ version
    link := url ++ "#" ++ anchor
    summary := truncSummary summary
    full_text := version ++ "\n\n" ++ summary
    reason := none }

/-- The line loop of `GitHubChangelogParser.fetch` (src/parsers/github.py
lines 56-110): a line whose stripped form starts with `"## "` begins a new
section (emitting the finished one); other lines accumulate into the current
section body and are dropped before the first header. -/
def changelogLoop (source url : String) :
    List String → Option String → List String → List Article
  | [], none, _ => []
  | [], some v, body => [mkChangelogArticle source url v body]
  | line :: rest, cur, body =>
    if leadsWith "## ".data (pyStrip line).data then
      let newVersion := pyStrip (strReplace (pyStrip line) "## " "")
      match cur with
      | some v =>
        mkChangelogArticle source url v body
          :: changelogLoop source url rest (some newVersion) []
      | none => changelogLoop source url rest (some newVersion) []
    else
      match cur with
      | some v => changelogLoop source url rest (some v) (body ++ [line])
      | none => changelogLoop source url rest none body

/-- Embeds `GitHubChangelogParser.fetch` (src/parsers/github.py lines 34-117):
convert to the raw URL, fetch, split into lines, run the section loop, and
return at most the first 5 sections. -/
def githubFetch (net : Net) (source url : String) : List Article :=
  match net (convertToRawUrl url) with
  | Except.error _ => []
  | Except.ok resp =>
    match raiseForStatus resp with
    | Except.error _ => []
    | Except.ok resp2 =>
      (changelogLoop source url (splitLines resp2.body) none []).take 5

/-! ## Parser selection -/

inductive ParserKind where
  | changelog
  | rss
  deriving DecidableEq

/-- Modelled from the spec: the dispatch site that picks a parser per
configured URL is not among the sources (only the two parser classes and
their tests are), so the predicate follows spec section 4.1 — "if the URL
points at a repository-hosted raw/blob text resource, use the changelog
variant; otherwise use the generic feed variant" — with the recognizable
shape taken from `_convert_to_raw_url`: a github.com `/blob/` URL or a
raw.githubusercontent.com resource. -/
def isChangelogUrl (url : String) : Bool :=
  (containsSubstr url "github.com" && containsSubstr url "/blob/")
    || containsSubstr url "raw.githubusercontent.com"

/-- Modelled from the spec: parser selection is a pure function of the URL. -/
def selectParserKind (url : String) : ParserKind :=
  if isChangelogUrl url then ParserKind.changelog else ParserKind.rss

/-! ## Concrete fixtures used by counterexamples and witnesses -/

def artA : Article :=
  { source := "SrcA", title := "A", link := "http://a.example/1"
    summary := "sa", full_text := "fa", reason := none }

def artB : Article :=
  { source := "SrcB", title := "B", link := "http://b.example/2"
    summary := "sb", full_text := "fb", reason := none }

/-- The changelog body from the repository test (tests/test_parsers.py). -/
def changelogText : String :=
  "\n## 2.1.22\n- Fixed stuff\n\n## 2.1.21\n- Added stuff\n"

def changelogNet : Net := fun _ => Except.ok { status := 200, body := changelogText }

/-- A final response that is neither 2xx nor an error raised by
`raise_for_status`: e.g. a 301 whose redirect was not followed (no Location),
delivered with a feed body. -/
def redirectNet : Net := fun _ => Except.ok { status := 301, body := "<rss/>" }

def oneEntryParse : String → Except ParseError (List FeedEntry) :=
  fun _ => Except.ok [{ title := some "T", summary := some "S", link := some "http://x" }]

def failNet : Net := fun _ => Except.error RequestError.networkError

def emptyParse : String → Except ParseError (List FeedEntry) :=
  fun _ => Except.ok []

/-! ## Lemmas about the deduplication store -/

theorem chunksOf_flatten (n : Nat) (l : List α) : (chunksOf n l).flatten = l := by
  match l with
  | [] => simp [chunksOf]
  | c :: rest =>
    have ih := chunksOf_flatten n (rest.drop (n - 1))
    rw [chunksOf]
    simp only [List.flatten_cons, List.cons_append, ih, List.take_append_drop]
termination_by l.length
decreasing_by simp only [List.length_drop, List.length_cons]; omega

theorem foldl_append_filter (p : α → Bool) (cs : List (List α)) :
    ∀ acc : List α,
      cs.foldl (fun a c => a ++ c.filter p) acc = acc ++ cs.flatten.filter p := by
  induction cs with
  | nil => intro acc; simp
  | cons c cs ih =>
    intro acc
    simp [List.foldl_cons, ih, List.filter_append, List.append_assoc]

/-- Evaluating `filter_new` against an available store keeps exactly the articles whose
identity hash is not among the existing documents: the chunked existence
checks add nothing and lose nothing. -/
theorem filterNew_some (getId : String → String) (store : Store)
    (arts : List Article) :
    filterNew getId (some store) arts
      = arts.filter (fun a => decide (getId a.link ∉ store.docs)) := by
  by_cases h : arts = []
  · subst h; simp [filterNew]
  · simp only [filterNew, if_neg h]
    refine List.filter_congr ?_
    intro a ha
    rw [foldl_append_filter, chunksOf_flatten, List.nil_append]
    rw [decide_eq_decide]
    constructor
    · intro hn hmem
      exact hn (List.mem_filter.mpr
        ⟨List.mem_map_of_mem _ ha, decide_eq_true hmem⟩)
    · intro hn hmem
      exact hn (of_decide_eq_true (List.mem_filter.mp hmem).2)

/-- Every identity hash fed to `saveLoop` (already stored, pending, or among
the incoming articles) exists in the resulting store. -/
theorem saveLoop_mem (getId : String → String) :
    ∀ (arts : List Article) (store : Store) (pending : List StoreId)
      (commits : List Nat) (x : StoreId),
      (x ∈ store.docs ∨ x ∈ pending ∨ x ∈ arts.map (fun a => getId a.link)) →
      x ∈ (saveLoop getId arts store pending commits).1.docs := by
  intro arts
  induction arts with
  | nil =>
    intro store pending commits x hx
    rcases hx with hx | hx | hx
    · by_cases hp : pending.length > 0 <;>
        simp [saveLoop, hp, List.mem_append, hx]
    · have hp : pending.length > 0 := by
        cases pending with
        | nil => simp at hx
        | cons c cs => simp
      simp [saveLoop, hp, List.mem_append, hx]
    · simp at hx
  | cons a rest ih =>
    intro store pending commits x hx
    simp only [List.map_cons, List.mem_cons] at hx
    simp only [saveLoop]
    by_cases hge : (pending ++ [getId a.link]).length ≥ 400
    · rw [if_pos hge]
      refine ih _ _ _ x ?_
      simp only [List.mem_append, List.mem_singleton, List.not_mem_nil]
      tauto
    · rw [if_neg hge]
      refine ih _ _ _ x ?_
      simp only [List.mem_append, List.mem_singleton]
      tauto

/-- The commit sizes produced by `saveLoop`: starting below the 400 cap with
`p` pending writes and `n` incoming articles, it emits full commits of 400
and one final commit holding the remainder, if any. -/
theorem saveLoop_commits (getId : String → String) :
    ∀ (arts : List Article) (store : Store) (pending : List StoreId)
      (commits : List Nat),
      pending.length < 400 →
      (saveLoop getId arts store pending commits).2
        = commits
          ++ List.replicate ((pending.length + arts.length) / 400) 400
          ++ (if (pending.length + arts.length) % 400 = 0 then []
              else [(pending.length + arts.length) % 400]) := by
  intro arts
  induction arts with
  | nil =>
    intro store pending commits hp
    have hdiv : pending.length / 400 = 0 := Nat.div_eq_of_lt hp
    have hmod : pending.length % 400 = pending.length := Nat.mod_eq_of_lt hp
    by_cases h0 : pending.length = 0
    · simp [saveLoop, h0]
    · have hpos : pending.length > 0 := Nat.pos_of_ne_zero h0
      simp [saveLoop, hpos, hdiv, hmod, h0]
  | cons a rest ih =>
    intro store pending commits hp
    simp only [saveLoop]
    by_cases hge : (pending ++ [getId a.link]).length ≥ 400
    · rw [if_pos hge]
      have h400 : pending.length + 1 = 400 := by
        simp only [List.length_append, List.length_singleton] at hge
        omega
      rw [ih _ [] _ (by simp)]
      simp only [List.length_append, List.length_singleton, List.length_nil,
        List.length_cons, Nat.zero_add, h400]
      have htot : pending.length + (rest.length + 1) = rest.length + 400 := by omega
      rw [htot, Nat.add_div_right _ (by norm_num), Nat.add_mod_right,
        List.replicate_succ]
      simp [List.append_assoc]
    · rw [if_neg hge]
      have hlt : (pending ++ [getId a.link]).length < 400 := by omega
      rw [ih _ _ _ hlt]
      simp only [List.length_append, List.length_singleton, List.length_cons,
        List.length_nil, Nat.zero_add]
      have htot : pending.length + 1 + rest.length
          = pending.length + (rest.length + 1) := by omega
      rw [htot]

/-- Results of `filter_new` are reason-annotated members of nothing new:
the output is always a subsequence of the input (order and multiplicity
preserved), over any manager state. -/
theorem filterNew_sublist (getId : String → String) (db : DB)
    (batch : List Article) : (filterNew getId db batch).Sublist batch := by
  match db with
  | none => exact List.Sublist.refl _
  | some store =>
    rw [filterNew_some]
    exact List.filter_sublist _

/-- C4: For every batch of articles and every reachable store state, after
`save_processed(batch)` completes, a subsequent `filter_new(batch)` over the
same identities returns the empty list.  (The store state is any existing
document set; `save_processed` writes every batch identity, and `filter_new`
then filters all of them out.) -/
theorem save_then_filter_empty (getId : String → String) (store : Store)
    (batch : List Article) :
    filterNew getId (saveProcessed getId (some store) batch).1 batch = [] := by
  by_cases h : batch = []
  · subst h; simp [saveProcessed, filterNew]
  · simp only [saveProcessed, if_neg h]
    rw [filterNew_some]
    rw [List.filter_eq_nil_iff]
    intro a ha
    simp only [decide_eq_true_eq, Decidable.not_not]
    exact saveLoop_mem getId batch store [] [] (getId a.link)
      (Or.inr (Or.inr (List.mem_map_of_mem _ ha)))

/-- C6: With the store available, `save_processed` on `n` articles issues
exactly `ceil(n/400)` commits: full commits of 400 and a final flush of the
remainder; in particular 850 articles produce commits of 400, 400 and 50. -/
theorem saveProcessed_commit_sizes (getId : String → String) (store : Store)
    (arts : List Article) :
    (saveProcessed getId (some store) arts).2
      = List.replicate (arts.length / 400) 400
        ++ (if arts.length % 400 = 0 then [] else [arts.length % 400]) ∧
    (saveProcessed getId (some store) arts).2.length
      = (arts.length + 399) / 400 ∧
    (∀ c ∈ (saveProcessed getId (some store) arts).2, 0 < c ∧ c ≤ 400) ∧
    (saveProcessed getId (some store) (List.replicate 850 artA)).2
      = [400, 400, 50] := by
  have hgen : ∀ l : List Article, l ≠ [] →
      (saveProcessed getId (some store) l).2
        = List.replicate (l.length / 400) 400
          ++ (if l.length % 400 = 0 then [] else [l.length % 400]) := by
    intro l hl
    simp only [saveProcessed, if_neg hl]
    rw [saveLoop_commits getId l store [] [] (by simp)]
    simp
  have hmain : (saveProcessed getId (some store) arts).2
      = List.replicate (arts.length / 400) 400
        ++ (if arts.length % 400 = 0 then [] else [arts.length % 400]) := by
    by_cases h : arts = []
    · subst h; simp [saveProcessed]
    · exact hgen arts h
  refine ⟨hmain, ?_, ?_, ?_⟩
  · rw [hmain]
    by_cases hm : arts.length % 400 = 0
    · rw [if_pos hm]
      simp only [List.append_nil, List.length_replicate]
      omega
    · rw [if_neg hm]
      simp only [List.length_append, List.length_replicate,
        List.length_singleton]
      omega
  · intro c hc
    rw [hmain] at hc
    simp only [List.mem_append, List.mem_replicate] at hc
    rcases hc with hc | hc
    · omega
    · by_cases hm : arts.length % 400 = 0
      · simp [hm] at hc
      · simp only [if_neg hm, List.mem_singleton] at hc
        have := Nat.mod_lt arts.length (show 0 < 400 by norm_num)
        omega
  · have hne : List.replicate 850 artA ≠ [] := by
      intro hcontra
      have hlen := congrArg List.length hcontra
      rw [List.length_replicate] at hlen
      simp at hlen
    rw [hgen _ hne, List.length_replicate]
    decide

/-- C10: `filter_new` returns a subsequence of its input, preserving order
and multiplicity, and performs no deduplication within the batch: two copies
of the same not-yet-seen article both survive. -/
theorem filterNew_subsequence_no_inbatch_dedup (getId : String → String)
    (db : DB) (batch : List Article) (store : Store) (a : Article)
    (h : getId a.link ∉ store.docs) :
    (filterNew getId db batch).Sublist batch ∧
    filterNew getId (some store) [a, a] = [a, a] := by
  refine ⟨filterNew_sublist getId db batch, ?_⟩
  rw [filterNew_some]
  simp [List.filter, h]

/-- Witness for the commit-size bounds of C6 at a concrete input: saving one
article issues one commit of one write. -/
theorem saveProcessed_commit_sizes_witness : 0 < 1 ∧ 1 ≤ 400 :=
  (saveProcessed_commit_sizes (fun s => s) { docs := [] } [artA]).2.2.1 1
    (by decide)

/-- Witness for C10 at a concrete input: an empty store passes both copies of
a duplicated fresh article through. -/
theorem filterNew_subsequence_no_inbatch_dedup_witness :
    (filterNew (fun s => s) none [artA]).Sublist [artA] ∧
    filterNew (fun s => s) (some { docs := [] }) [artA, artA] = [artA, artA] :=
  filterNew_subsequence_no_inbatch_dedup (fun s => s) none [artA]
    { docs := [] } artA (by simp)

/-! ## Markup stripping (C3) -/

/-- C3: evaluation of the markup-stripping function at the inputs from the spec:
tags are removed and `None` maps to `""`, but HTML entities are NOT decoded —
`clean_html("Tom &amp; Jerry")` keeps the `&amp;` verbatim, contradicting the
spec and the test of the repository itself (src/tests/test_daily_brief.py asserts
`clean_html("Tom &amp; Jerry") == "Tom & Jerry"` and
`clean_html("&#62;") == ">"`). -/
theorem cleanHtml_no_entity_decoding :
    cleanHtml (some "<p>Hello</p>") = "Hello" ∧
    cleanHtml none = "" ∧
    cleanHtml (some "Tom &amp; Jerry") = "Tom &amp; Jerry" ∧
    cleanHtml (some "Tom &amp; Jerry") ≠ "Tom & Jerry" ∧
    cleanHtml (some "&#62;") = "&#62;" := by
  refine ⟨by decide, rfl, by decide, by decide, by decide⟩

/-! ## The curation/save policy of main (C2) -/

/-- C2 counterexample: a run that reaches the curation stage (the platform
group is non-empty, so `analyze_with_gemini` is invoked) but whose curation
yields no selection for either group: `main` then skips `save_processed`
entirely, so the filtered-new articles are not saved and will be re-offered
on the next run — the claim demands they be saved on every such run. -/
theorem mainCurationStage_no_save_on_empty_curation :
    ¬ ([artA] = ([] : List Article) ∧ ([] : List Article) = []) ∧
    (mainCurationStage [artA] [] (fun _ _ => [])).saved = none ∧
    (mainCurationStage [artA] [] (fun _ _ => [])).saved ≠ some ([artA] ++ []) := by
  refine ⟨by simp, by decide, by decide⟩

/-- C2 amended: all filtered-new articles (both feed groups, in full — not
only the curated subset) are saved exactly when curation selects at least one
article, i.e. when the email is sent; when curation returns empty for both
groups nothing is saved. -/
theorem mainCurationStage_save_policy (newPlatform newBlogs : List Article)
    (analyze : List Article → Nat → List Article) :
    (∀ fp fb,
      (mainCurationStage newPlatform newBlogs analyze).emailed = some (fp, fb) →
      (mainCurationStage newPlatform newBlogs analyze).saved
        = some (newPlatform ++ newBlogs)) ∧
    ((mainCurationStage newPlatform newBlogs analyze).emailed = none →
      (mainCurationStage newPlatform newBlogs analyze).saved = none) := by
  by_cases h1 : newPlatform = [] ∧ newBlogs = []
  · simp only [mainCurationStage]
    rw [if_pos h1]
    exact ⟨fun fp fb hcontra => by simp at hcontra, fun _ => rfl⟩
  · by_cases h2 : (if newPlatform = [] then [] else analyze newPlatform 15) = []
        ∧ (if newBlogs = [] then ([] : List Article) else analyze newBlogs 15) = []
    · simp only [mainCurationStage]
      rw [if_neg h1, if_pos h2]
      exact ⟨fun fp fb hcontra => by simp at hcontra, fun _ => rfl⟩
    · simp only [mainCurationStage]
      rw [if_neg h1, if_neg h2]
      exact ⟨fun fp fb _ => rfl, fun hcontra => by simp at hcontra⟩

/-- Witness for C2 amended at a concrete input: identity curation selects
something, and everything filtered-new is saved. -/
theorem mainCurationStage_save_policy_witness :
    (mainCurationStage [artA] [] (fun l _ => l)).saved = some ([artA] ++ []) :=
  (mainCurationStage_save_policy [artA] [] (fun l _ => l)).1 [artA] [] (by decide)

/-! ## The link invariant (C9) -/

/-- C9 counterexample: the placeholder is an ordinary string, so it is not
collision-free, and a present-but-empty feed link passes through: an entry
whose link attribute is the real string "#" yields exactly the link "#"
assigned to a link-less entry (identity hashes are a function of the link, so
the two dedup identities coincide), and an entry with a present empty link
enters deduplication with an empty link. -/
theorem rssLink_placeholder_collides :
    (mkRssArticle "S" { title := some "T", summary := some "Sum", link := none }).link
      = "#" ∧
    (mkRssArticle "S" { title := some "T2", summary := some "Sum2", link := some "#" }).link
      = (mkRssArticle "S" { title := some "T", summary := some "Sum", link := none }).link ∧
    (mkRssArticle "S" { title := some "T3", summary := none, link := some "" }).link
      = "" := by
  refine ⟨rfl, rfl, rfl⟩

/-- C9 amended: an article whose feed entry lacks a link is assigned the
placeholder "#" rather than an empty string; the placeholder is however an
ordinary string value, not a collision-free sentinel. -/
theorem rssLink_placeholder (source : String) (e : FeedEntry)
    (h : e.link = none) :
    (mkRssArticle source e).link = "#" ∧ (mkRssArticle source e).link ≠ "" := by
  have hl : (mkRssArticle source e).link = "#" := by
    unfold mkRssArticle
    rw [h]
  exact ⟨hl, by rw [hl]; decide⟩

/-- Witness for C9 amended at a concrete entry without a link. -/
theorem rssLink_placeholder_witness :
    (mkRssArticle "S" { title := none, summary := none, link := none }).link = "#" ∧
    (mkRssArticle "S" { title := none, summary := none, link := none }).link ≠ "" :=
  rssLink_placeholder "S" { title := none, summary := none, link := none } rfl

/-! ## Parser selection (C8) -/

/-- C8: parser selection is a pure function of the URL (`selectParserKind`
takes only the URL, no network oracle): every URL without a recognizable
blob/raw changelog shape selects the generic feed variant, and every
repository-hosted raw/blob text URL selects the changelog variant. -/
theorem selectParserKind_by_url_shape (url : String) :
    (isChangelogUrl url = false → selectParserKind url = ParserKind.rss) ∧
    (isChangelogUrl url = true → selectParserKind url = ParserKind.changelog) := by
  constructor <;> intro h <;> simp [selectParserKind, h]

/-- Witness for C8 at concrete URLs of both shapes. -/
theorem selectParserKind_by_url_shape_witness :
    selectParserKind "https://example.com/feed.xml" = ParserKind.rss ∧
    selectParserKind "https://github.com/org/repo/blob/main/CHANGELOG.md"
      = ParserKind.changelog :=
  ⟨(selectParserKind_by_url_shape "https://example.com/feed.xml").1 (by decide),
   (selectParserKind_by_url_shape
      "https://github.com/org/repo/blob/main/CHANGELOG.md").2 (by decide)⟩

/-! ## Lemmas about the selection loop (C1) -/

theorem pyIndex_mem (l : List Article) (i : Int) (a : Article)
    (h : pyIndex l i = Except.ok a) : a ∈ l := by
  simp only [pyIndex] at h
  by_cases h0 : (0 : Int) ≤ (if i < 0 then (l.length : Int) + i else i)
  · rw [if_pos h0] at h
    cases hg : l.get? (if i < 0 then (l.length : Int) + i else i).toNat with
    | none => rw [hg] at h; simp at h
    | some b =>
      rw [hg] at h
      simp only [Except.ok.injEq] at h
      subst h
      exact List.get?_mem hg
  · rw [if_neg h0] at h; simp at h

theorem selOutcome_int_ge (cands : List Article)
    (entries : List (String × PyAtom)) (n : Int)
    (hid : dictLookup "id" entries = some (PyAtom.aint n))
    (hge : (cands.length : Int) ≤ n) :
    selOutcome cands (PyVal.pdict entries) = Except.ok none := by
  simp only [selOutcome, hid]
  rw [if_neg (by omega)]

theorem selOutcome_str (cands : List Article)
    (entries : List (String × PyAtom)) (s : String)
    (hid : dictLookup "id" entries = some (PyAtom.astr s)) :
    selOutcome cands (PyVal.pdict entries) = Except.error PyErr.typeError := by
  simp only [selOutcome, hid]

theorem selOutcome_ok_some (cands : List Article) (sel : PyVal) (x : Article)
    (h : selOutcome cands sel = Except.ok (some x)) :
    ∃ c ∈ cands, ∃ r, x = { c with reason := some r } := by
  cases sel with
  | atom a => simp [selOutcome] at h
  | pdict entries =>
    cases hid : dictLookup "id" entries with
    | none => simp [selOutcome, hid] at h
    | some v =>
      cases v with
      | astr s => simp [selOutcome, hid] at h
      | anone => simp [selOutcome, hid] at h
      | aint n =>
        simp only [selOutcome, hid] at h
        by_cases hlt : n < (cands.length : Int)
        · rw [if_pos hlt] at h
          cases hp : pyIndex cands n with
          | error e => rw [hp] at h; simp at h
          | ok a =>
            rw [hp] at h
            simp only [Except.ok.injEq, Option.some.injEq] at h
            exact ⟨a, pyIndex_mem cands n a hp, _, h.symm⟩
        · rw [if_neg hlt] at h; simp at h

theorem processSelections_sound (cands : List Article) :
    ∀ (sels : List PyVal) (l : List Article),
      processSelections cands sels = Except.ok l →
      ∀ x ∈ l, ∃ c ∈ cands, ∃ r, x = { c with reason := some r } := by
  intro sels
  induction sels with
  | nil =>
    intro l h x hx
    simp only [processSelections, Except.ok.injEq] at h
    subst h; simp at hx
  | cons sel rest ih =>
    intro l h x hx
    simp only [processSelections] at h
    cases ho : selOutcome cands sel with
    | error e => rw [ho] at h; simp at h
    | ok oa =>
      rw [ho] at h
      cases oa with
      | none => exact ih l h x hx
      | some a =>
        cases hr : processSelections cands rest with
        | error e => rw [hr] at h; simp at h
        | ok l2 =>
          rw [hr] at h
          simp only [Except.ok.injEq] at h
          subst h
          rcases List.mem_cons.mp hx with hx | hx
          · subst hx; exact selOutcome_ok_some cands sel x ho
          · exact ih l2 hr x hx

/-! ## C1: the curation bounds check -/

/-- C1 counterexample: a selection entry with the negative integer id `-1` is
NOT skipped — Python indexing makes `candidates[-1]` dereference the last
element of the candidate window, so it comes back annotated, whereas the
claim requires any entry with a negative id to be silently dropped (which
would give an empty result here). -/
theorem analyzeWithGemini_negative_id_dereferences :
    analyzeWithGemini [artA, artB] [PyVal.pdict [("id", PyAtom.aint (-1))]]
      = [{ artB with reason := some defaultAnalysis }] ∧
    analyzeWithGemini [artA, artB] [PyVal.pdict [("id", PyAtom.aint (-1))]]
      ≠ [] := by
  refine ⟨rfl, by decide⟩

/-- C1 amended: the check `sel["id"] < len(candidates)` bounds the window
dereference only from above.  (a) Every returned article is a
reason-annotated member of the candidate window; (b) a dict entry whose
integer id is ≥ the window size is skipped; (c) a dict entry with a
non-integer id (e.g. a string) raises a comparison `TypeError`, which the
outer handler resolves to an empty result for the whole batch — it is not
silently skipped; (d) a dict entry with a negative integer id `n`
(with `0 ≤ window size + n`) is dereferenced at Python index
`window size + n` rather than skipped. -/
theorem analyzeWithGemini_bounds (articles : List Article) (sels : List PyVal) :
    (∀ x ∈ analyzeWithGemini articles sels,
      ∃ c ∈ articles.take 500, ∃ r, x = { c with reason := some r }) ∧
    (∀ (entries : List (String × PyAtom)) (n : Int) (rest : List PyVal),
      dictLookup "id" entries = some (PyAtom.aint n) →
      ((articles.take 500).length : Int) ≤ n →
      analyzeWithGemini articles (PyVal.pdict entries :: rest)
        = analyzeWithGemini articles rest) ∧
    (∀ (entries : List (String × PyAtom)) (s : String) (rest : List PyVal),
      dictLookup "id" entries = some (PyAtom.astr s) →
      analyzeWithGemini articles (PyVal.pdict entries :: rest) = []) ∧
    (∀ (entries : List (String × PyAtom)) (n : Int) (rest : List PyVal)
      (c : Article),
      dictLookup "id" entries = some (PyAtom.aint n) →
      n < 0 → 0 ≤ ((articles.take 500).length : Int) + n →
      (articles.take 500).get? (((articles.take 500).length : Int) + n).toNat
        = some c →
      processSelections (articles.take 500) (PyVal.pdict entries :: rest)
        = Except.map
            (fun l =>
              { c with reason := some (selGet entries "analysis" defaultAnalysis) } :: l)
            (processSelections (articles.take 500) rest)) := by
  refine ⟨?_, ?_, ?_, ?_⟩
  · intro x hx
    simp only [analyzeWithGemini] at hx
    cases hp : processSelections (articles.take 500) sels with
    | error e => rw [hp] at hx; simp at hx
    | ok l =>
      rw [hp] at hx
      exact processSelections_sound (articles.take 500) sels l hp x hx
  · intro entries n rest hid hge
    simp only [analyzeWithGemini, processSelections,
      selOutcome_int_ge (articles.take 500) entries n hid hge]
  · intro entries s rest hid
    simp only [analyzeWithGemini, processSelections,
      selOutcome_str (articles.take 500) entries s hid]
  · intro entries n rest c hid hn0 hinb hget
    have hsel : selOutcome (articles.take 500) (PyVal.pdict entries)
        = Except.ok (some
            { c with reason := some (selGet entries "analysis" defaultAnalysis) }) := by
      simp only [selOutcome, hid]
      rw [if_pos (by omega)]
      simp only [pyIndex]
      rw [if_pos hn0, if_pos hinb, hget]
    simp only [processSelections, hsel]
    cases hr : processSelections (articles.take 500) rest with
    | error e => simp [Except.map]
    | ok l2 => simp [Except.map]

/-- Witness for C1 amended at a concrete input: an integer id beyond the
window (5 ≥ 1) is skipped. -/
theorem analyzeWithGemini_bounds_witness :
    analyzeWithGemini [artA] [PyVal.pdict [("id", PyAtom.aint 5)]]
      = analyzeWithGemini [artA] [] :=
  (analyzeWithGemini_bounds [artA] []).2.1 [("id", PyAtom.aint 5)] 5 []
    (by decide) (by decide)

/-! ## C5: parser fetch error behaviour -/

/-- C5 counterexample: "non-2xx implies empty" does not hold — only 4xx/5xx
are raised by `raise_for_status`.  A final 3xx response (e.g. a 301 whose
redirect was not followed) with a parseable body flows on into the feed
parser and yields articles. -/
theorem rssFetch_non2xx_not_empty :
    redirectNet "http://feed" = Except.ok { status := 301, body := "<rss/>" } ∧
    ¬ (200 ≤ 301 ∧ 301 < 300) ∧
    rssFetch redirectNet oneEntryParse "Src" "http://feed"
      = [mkRssArticle "Src"
          { title := some "T", summary := some "S", link := some "http://x" }] ∧
    rssFetch redirectNet oneEntryParse "Src" "http://feed" ≠ [] := by
  refine ⟨rfl, by decide, rfl, by decide⟩

/-- C5 amended: neither parser raises past its boundary; on a network error
or a 4xx/5xx response (what `raise_for_status` raises for) the fetch returns
the empty sequence, and a feed-parse failure inside the RSS parser is caught
internally and also resolved to an empty sequence. -/
theorem fetch_error_boundaries (net : Net)
    (parse : String → Except ParseError (List FeedEntry)) (source url : String) :
    (∀ e, net url = Except.error e → rssFetch net parse source url = []) ∧
    (∀ r, net url = Except.ok r → 400 ≤ r.status → r.status < 600 →
      rssFetch net parse source url = []) ∧
    (∀ r pe, net url = Except.ok r → parse r.body = Except.error pe →
      rssFetch net parse source url = []) ∧
    (∀ e, net (convertToRawUrl url) = Except.error e →
      githubFetch net source url = []) ∧
    (∀ r, net (convertToRawUrl url) = Except.ok r → 400 ≤ r.status →
      r.status < 600 → githubFetch net source url = []) := by
  refine ⟨?_, ?_, ?_, ?_, ?_⟩
  · intro e hnet
    unfold rssFetch
    rw [hnet]
  · intro r hnet h4 h6
    unfold rssFetch
    rw [hnet]
    simp only [raiseForStatus]
    rw [if_pos ⟨h4, h6⟩]
  · intro r pe hnet hparse
    unfold rssFetch
    rw [hnet]
    simp only [raiseForStatus]
    by_cases hs : 400 ≤ r.status ∧ r.status < 600
    · rw [if_pos hs]
    · rw [if_neg hs]
      simp only [hparse]
  · intro e hnet
    unfold githubFetch
    rw [hnet]
  · intro r hnet h4 h6
    unfold githubFetch
    rw [hnet]
    simp only [raiseForStatus]
    rw [if_pos ⟨h4, h6⟩]

/-- Witness for C5 amended at concrete oracles: a raised network error
resolves to an empty result. -/
theorem fetch_error_boundaries_witness :
    rssFetch failNet emptyParse "S" "http://u" = [] :=
  (fetch_error_boundaries failNet emptyParse "S" "http://u").1
    RequestError.networkError rfl

/-! ## C7: changelog splitting -/

/-- C7: on the two-section changelog fixture of the repository tests the parser
returns exactly the two articles, in document order, titled "Changelog
2.1.22" and "Changelog 2.1.21", each carrying its own section body as its
summary; and for every input the result keeps at most the first 5 sections. -/
theorem githubFetch_changelog_sections :
    githubFetch changelogNet "Test Source"
        "https://github.com/org/repo/blob/main/CHANGELOG.md"
      = [{ source := "Test Source", title := "Changelog 2.1.22",
           link := "https://github.com/org/repo/blob/main/CHANGELOG.md#2122",
           summary := "- Fixed stuff", full_text := "2.1.22\n\n- Fixed stuff",
           reason := none },
         { source := "Test Source", title := "Changelog 2.1.21",
           link := "https://github.com/org/repo/blob/main/CHANGELOG.md#2121",
           summary := "- Added stuff", full_text := "2.1.21\n\n- Added stuff",
           reason := none }] ∧
    (∀ (net : Net) (source url : String), (githubFetch net source url).length ≤ 5) := by
  constructor
  · decide
  · intro net source url
    have h : githubFetch net source url = [] ∨
        ∃ l : List Article, githubFetch net source url = l.take 5 := by
      cases hnet : net (convertToRawUrl url) with
      | error e => simp [githubFetch, hnet]
      | ok resp =>
        cases hrs : raiseForStatus resp with
        | error e => simp [githubFetch, hnet, hrs]
        | ok resp2 =>
          refine Or.inr
            ⟨changelogLoop source url (splitLines resp2.body) none [], ?_⟩
          simp [githubFetch, hnet, hrs]
    rcases h with h | ⟨l, h⟩
    · simp [h]
    · rw [h, List.length_take]
      exact Nat.min_le_left _ _

end DailyBrief
